import Mathlib

/-!
Verification of the payload_dumper core (`src/payload_core.py`) against its
natural-language specification.  The Python code is shallowly embedded:

* byte strings become `List Nat` (each element a byte value);
* seekable files become either pure slices (read-only inputs) or an explicit
  write trace (`OutFile` records every `seek`/`write` the code performs);
* Python exceptions become `Except` values; a `ValueError` keeps its message,
  a `TypeError` / `IndexError` / `struct.error` is recorded by kind;
* external libraries (hashlib, bz2, lzma, zstandard, brotli, bsdiff4.core.patch)
  are parameters of the embedding collected in an `Env` structure, since their
  internals are not part of this repository;
* the percent computation `int((idx + 1) / total * 100)` is modelled
  bit-exactly: `pyPercent` performs the correctly rounded binary64 division
  of the exact rational (round to nearest, ties to even, 53-bit mantissa),
  the exact product with 100 rounded back to 53 bits, and truncation toward
  zero — the IEEE semantics CPython uses.  Only the subnormal and overflow
  regimes are outside the model; inside the loop the quotient lies in
  (1/total, 1], so those would require more than 2^1022 partitions.
-/

namespace PayloadCore

/-- Python exceptions observed by the embedded code: `ValueError msg` for the
errors the code raises itself, `typeError` for operations on `None`,
`indexError` for out-of-range subscripts, `structError` for `struct.unpack`
on a short buffer. -/
inductive Err where
  | valueError (msg : String)
  | typeError
  | indexError
  | structError
  deriving DecidableEq, Repr

/-- Big-endian value of a byte list (most significant byte first). -/
def beVal (l : List Nat) : Nat :=
  l.foldl (fun acc b => acc * 256 + b) 0

/-- Model of `u32`: big-endian 4-byte decode; `struct.error` unless the
input is exactly 4 bytes. -/
def u32 (x : List Nat) : Except Err Nat :=
  if x.length = 4 then .ok (beVal x) else .error .structError

/-- Model of `u64`: big-endian 8-byte decode; `struct.error` unless the
input is exactly 8 bytes. -/
def u64 (x : List Nat) : Except Err Nat :=
  if x.length = 8 then .ok (beVal x) else .error .structError

/-- Big-endian encoding of `n` into `k` bytes (used to build concrete payload
frames in theorems). -/
def beBytes (k n : Nat) : List Nat :=
  match k with
  | 0 => []
  | k + 1 => beBytes k (n / 256) ++ [n % 256]

/-- Little-endian value of a byte list (least significant byte first). -/
def leVal (l : List Nat) : Nat :=
  l.foldr (fun b acc => acc * 256 + b) 0

/-- Model of `bsdiff4.core.decode_int64`: 8-byte little-endian magnitude with
the sign kept in the high bit of the last byte.  All call sites verified below
pass exactly 8 bytes, so the length check of the C library is not modelled. -/
def decode_int64 (b : List Nat) : Int :=
  let mag : Nat := leVal (b.take 7) + (b.getD 7 0 % 128) * 256 ^ 7
  if b.getD 7 0 ≥ 128 then -(mag : Int) else (mag : Int)

/-- Seekable read-only byte source (`payload_file`, `io.BytesIO`): the
underlying bytes plus a cursor. -/
structure ByteStream where
  data : List Nat
  pos : Nat
  deriving DecidableEq, Repr

/-- Model of `fi.read(n)` for `n : Nat`: returns up to `n` bytes from the
cursor and advances the cursor by the number of bytes actually returned. -/
def ByteStream.readN (s : ByteStream) (n : Nat) : List Nat × ByteStream :=
  let chunk := (s.data.drop s.pos).take n
  (chunk, ⟨s.data, s.pos + chunk.length⟩)

/-- Model of `fi.read(n)` for a signed count (the BSDF2 lengths are decoded as
signed int64): Python reads to the end of the stream when `n` is negative. -/
def ByteStream.readI (s : ByteStream) (n : Int) : List Nat × ByteStream :=
  if n < 0 then
    (s.data.drop s.pos, ⟨s.data, s.pos + (s.data.drop s.pos).length⟩)
  else
    s.readN n.toNat

/-- Model of `fi.read()`: read all remaining bytes. -/
def ByteStream.readAll (s : ByteStream) : List Nat × ByteStream :=
  (s.data.drop s.pos, ⟨s.data, s.pos + (s.data.drop s.pos).length⟩)

/-- External libraries used by `payload_core.py`, taken as parameters of the
embedding: the SHA-256 digest, the five decompressors, and
`bsdiff4.core.patch`.  The fallible ones return `Except` because the Python
calls can raise.  `patch` receives exactly the tuple produced by
`bsdf2_read_patch`, in which the diff and extra buffers may be `None`. -/
structure Env where
  sha256 : List Nat → List Nat
  bz2 : List Nat → Except Err (List Nat)
  bz2_stream : List Nat → Except Err (List Nat)
  lzma : List Nat → Except Err (List Nat)
  zstd : List Nat → Except Err (List Nat)
  brotli : List Nat → Except Err (List Nat)
  patch : List Nat → Int → List (Int × Int × Int) → Option (List Nat) →
    Option (List Nat) → Except Err (List Nat)

/-- Bytes of `bsdiff4.format.MAGIC`, the ASCII string BSDIFF40. -/
def BSDIFF40_MAGIC : List Nat := [66, 83, 68, 73, 70, 70, 52, 48]

/-- Bytes of the `BSDF2_MAGIC` constant, the ASCII string BSDF2. -/
def BSDF2_MAGIC : List Nat := [66, 83, 68, 70, 50]

/-- Model of `bsdf2_decompress(alg, data)`.  The Python function has no `else`
branch: for an algorithm id outside {0, 1, 2} it falls off the end and returns
`None`, modelled as `.ok none`. -/
def bsdf2_decompress (E : Env) (alg : Nat) (data : List Nat) :
    Except Err (Option (List Nat)) :=
  if alg = 0 then .ok (some data)
  else if alg = 1 then (E.bz2 data).map some
  else if alg = 2 then (E.brotli data).map some
  else .ok none

/-- Model of a Python subscript `l[i]`: `IndexError` when out of range. -/
def pyIndex (l : List Nat) (i : Nat) : Except Err Nat :=
  match l[i]? with
  | some v => .ok v
  | none => .error .indexError

/-- Magic dispatch of `bsdf2_read_patch` (lines 61-73 of the source): the
legacy bsdiff4 magic selects BZ2 for all three sections, a BSDF2 prefix takes
the three algorithm ids from magic bytes 5, 6, 7, and anything else raises
`ValueError`. -/
def patchAlgs (magic : List Nat) : Except Err (Nat × Nat × Nat) :=
  if magic = BSDIFF40_MAGIC then .ok (1, 1, 1)
  else if magic.take 5 = BSDF2_MAGIC then
    match pyIndex magic 5 with
    | .error e => .error e
    | .ok a =>
      match pyIndex magic 6 with
      | .error e => .error e
      | .ok b =>
        match pyIndex magic 7 with
        | .error e => .error e
        | .ok c => .ok (a, b, c)
  else .error (.valueError "incorrect magic bsdiff/BSDF2 header")

/-- Iteration of the control-block parse, structurally recursive on a fuel
argument that bounds the number of 24-byte records still possible (each step
consumes a non-empty list and drops 24 bytes, so a fuel equal to the byte
count never runs out first). -/
def controlTriplesGo : Nat → List Nat → List (Int × Int × Int)
  | _, [] => []
  | 0, _ => []
  | fuel + 1, bc =>
    (decode_int64 (bc.take 8), decode_int64 ((bc.drop 8).take 8),
      decode_int64 ((bc.drop 16).take 8)) :: controlTriplesGo fuel (bc.drop 24)

/-- Control-block parse of `bsdf2_read_patch`: 24-byte records starting at the
offsets `range(0, len(bcontrol), 24)`, each holding three signed int64 values;
Python slices clamp at the end of the buffer. -/
def controlTriples (bc : List Nat) : List (Int × Int × Int) :=
  controlTriplesGo bc.length bc

/-- The source computes `len(bcontrol)` on the result of `bsdf2_decompress`;
when that result is `None` (unknown algorithm id) Python raises `TypeError`. -/
def parseControl : Option (List Nat) → Except Err (List (Int × Int × Int))
  | none => .error .typeError
  | some bc => .ok (controlTriples bc)

/-- Model of `bsdf2_read_patch(fi)`: magic dispatch, three signed int64
lengths, then the decompressed control, diff and extra sections.  The diff and
extra buffers stay `Option` because the Python code returns whatever
`bsdf2_decompress` produced (possibly `None`) without inspecting it. -/
def bsdf2_read_patch (E : Env) (fi : ByteStream) :
    Except Err (Int × List (Int × Int × Int) × Option (List Nat) × Option (List Nat)) :=
  let r0 := fi.readN 8
  match patchAlgs r0.1 with
  | .error e => .error e
  | .ok algs =>
    let r1 := r0.2.readN 8
    let len_control := decode_int64 r1.1
    let r2 := r1.2.readN 8
    let len_diff := decode_int64 r2.1
    let r3 := r2.2.readN 8
    let len_dst := decode_int64 r3.1
    let rc := r3.2.readI len_control
    match bsdf2_decompress E algs.1 rc.1 with
    | .error e => .error e
    | .ok bcontrol =>
      match parseControl bcontrol with
      | .error e => .error e
      | .ok tcontrol =>
        let rd := rc.2.readI len_diff
        match bsdf2_decompress E algs.2.1 rd.1 with
        | .error e => .error e
        | .ok bdiff =>
          let re := rd.2.readAll
          match bsdf2_decompress E algs.2.2 re.1 with
          | .error e => .error e
          | .ok bextra => .ok (len_dst, tcontrol, bdiff, bextra)

/-- Decoded `Extent` message: a block range of the old or new image. -/
structure Extent where
  start_block : Nat
  num_blocks : Nat
  deriving DecidableEq, Repr

/-- Decoded `InstallOperation` message.  `data_sha256_hash` is a protobuf
`bytes` field whose default is the empty string; the source tests presence
with `if op.data_sha256_hash:`, i.e. non-emptiness. -/
structure InstallOperation where
  type : Nat
  data_offset : Nat
  data_length : Nat
  data_sha256_hash : List Nat
  src_extents : List Extent
  dst_extents : List Extent
  deriving DecidableEq, Repr

/-- Decoded `PartitionUpdate` message. -/
structure PartitionUpdate where
  partition_name : String
  operations : List InstallOperation
  deriving DecidableEq, Repr

/-- Write trace of the output image file: the current cursor plus the ordered
list of `(offset, bytes)` pairs actually written. -/
structure OutFile where
  pos : Nat
  writes : List (Nat × List Nat)
  deriving DecidableEq, Repr

/-- Model of `out_file.seek(p)` (absolute). -/
def OutFile.seek (f : OutFile) (p : Nat) : OutFile :=
  { f with pos := p }

/-- Model of `out_file.write(d)`: the bytes land at the cursor and the cursor
advances. -/
def OutFile.write (f : OutFile) (d : List Nat) : OutFile :=
  { pos := f.pos + d.length, writes := f.writes ++ [(f.pos, d)] }

/-- Model of the Python subscript `exts[0]` on an extent list. -/
def pyHead : List Extent → Except Err Extent
  | [] => .error .indexError
  | e :: _ => .ok e

/-- Model of reading one source extent from the old image
(`old_file.seek(ext.start_block * block_size)` followed by
`old_file.read(ext.num_blocks * block_size)`). -/
def extentSlice (od : List Nat) (ext : Extent) (block_size : Nat) : List Nat :=
  (od.drop (ext.start_block * block_size)).take (ext.num_blocks * block_size)

/-- Scatter loop of the BSDIFF branch (lines 239-246 of the source): a block
cursor `n` starts at 0; for each destination extent the loop reads the next
`num_blocks * block_size` bytes of the patched buffer at `n * block_size`,
writes them at `start_block * block_size`, and advances `n` by `num_blocks`. -/
def scatter_extents (f : OutFile) (tmp : List Nat) (exts : List Extent)
    (block_size : Nat) : OutFile :=
  (exts.foldl
    (fun acc ext =>
      ((acc.1.seek (ext.start_block * block_size)).write
        ((tmp.drop (acc.2 * block_size)).take (ext.num_blocks * block_size)),
        acc.2 + ext.num_blocks))
    (f, 0)).1

/-- Model of `data_for_op(op, payload_file, out_file, old_file, data_offset,
block_size)`: fetch the operation bytes, verify the optional SHA-256 digest,
then dispatch on `op.type` exactly as the source does.  Errors carry the state
of the output file at the moment the exception is raised, so untouched-output
properties are part of the result. -/
def data_for_op (E : Env) (op : InstallOperation) (payload : List Nat)
    (out : OutFile) (old : Option (List Nat)) (data_offset block_size : Nat) :
    Except (OutFile × Err) OutFile :=
  let raw_data := (payload.drop (data_offset + op.data_offset)).take op.data_length
  if op.data_sha256_hash ≠ [] ∧ E.sha256 raw_data ≠ op.data_sha256_hash then
    .error (out, .valueError "Operation data hash mismatch!")
  else if op.type = 0 then
    match pyHead op.dst_extents with
    | .error e => .error (out, e)
    | .ok e0 => .ok ((out.seek (e0.start_block * block_size)).write raw_data)
  else if op.type = 1 then
    match E.bz2_stream raw_data with
    | .error e => .error (out, e)
    | .ok data =>
      match pyHead op.dst_extents with
      | .error e => .error (out, e)
      | .ok e0 => .ok ((out.seek (e0.start_block * block_size)).write data)
  else if op.type = 3 ∨ op.type = 8 then
    match E.lzma raw_data with
    | .error e => .error (out, e)
    | .ok data =>
      match pyHead op.dst_extents with
      | .error e => .error (out, e)
      | .ok e0 => .ok ((out.seek (e0.start_block * block_size)).write data)
  else if op.type = 4 then
    match E.zstd raw_data with
    | .error e => .error (out, e)
    | .ok data =>
      match pyHead op.dst_extents with
      | .error e => .error (out, e)
      | .ok e0 => .ok ((out.seek (e0.start_block * block_size)).write data)
  else if op.type = 5 then
    match old with
    | none => .error (out, .valueError "[OP] SOURCE_COPY requires old_file!")
    | some od =>
      match pyHead op.dst_extents with
      | .error e => .error (out, e)
      | .ok e0 =>
        .ok (op.src_extents.foldl
          (fun g ext => g.write (extentSlice od ext block_size))
          (out.seek (e0.start_block * block_size)))
  else if op.type = 6 ∨ op.type = 10 then
    match old with
    | none => .error (out, .valueError "[OP] BSDIFF requires old_file!")
    | some od =>
      match pyHead op.dst_extents with
      | .error e => .error (out, e)
      | .ok e0 =>
        let f := out.seek (e0.start_block * block_size)
        let old_data := (op.src_extents.map
          (fun ext => extentSlice od ext block_size)).flatten
        match bsdf2_read_patch E ⟨raw_data, 0⟩ with
        | .error e => .error (f, e)
        | .ok p =>
          match E.patch old_data p.1 p.2.1 p.2.2.1 p.2.2.2 with
          | .error e => .error (f, e)
          | .ok patched =>
            let tmp := patched ++ old_data.drop patched.length
            .ok (scatter_extents f tmp op.dst_extents block_size)
  else if op.type = 2 then
    .ok (op.dst_extents.foldl
      (fun g ext =>
        (g.seek (ext.start_block * block_size)).write
          (List.replicate (ext.num_blocks * block_size) 0))
      out)
  else
    .error (out, .valueError ("[OP] Unsupported operation type: " ++ toString op.type))

/-- Bytes of the payload magic, the ASCII string CrAU. -/
def CrAU : List Nat := [0x43, 0x72, 0x41, 0x55]

/-- Model of the frame parsing prefix of `run_payload_dumper` (lines 316-342
of the source): magic check, version check, manifest and signature sizes, the
manifest read, and the data offset captured by `payload_file.tell()`.  Note
that `payload_file.read(manifest_size)` silently returns fewer bytes when the
file is shorter than declared; the source performs no truncation check. -/
def parseFrame (file : List Nat) : Except Err (List Nat × Nat) :=
  let r0 := ByteStream.readN ⟨file, 0⟩ 4
  if r0.1 ≠ CrAU then
    .error (.valueError "Invalid magic header, not an OTA payload")
  else
    let r1 := r0.2.readN 8
    match u64 r1.1 with
    | .error e => .error e
    | .ok version =>
      if version ≠ 2 then
        .error (.valueError ("Unsupported file format version: " ++ toString version))
      else
        let r2 := r1.2.readN 8
        match u64 r2.1 with
        | .error e => .error e
        | .ok manifest_size =>
          let r3 := if version > 1 then r2.2.readN 4 else ([], r2.2)
          match if version > 1 then u32 r3.1 else .ok 0 with
          | .error e => .error e
          | .ok metadata_signature_size =>
            let r4 := r3.2.readN manifest_size
            let r5 := r4.2.readN metadata_signature_size
            .ok (r4.1, r5.2.pos)

/-- Partition selection of `run_payload_dumper` (lines 350-352): Python tests
`if not images`, so both an absent (`none`) and an empty allow-list select all
partitions; a non-empty allow-list filters the manifest list in place. -/
def select_parts (partitions : List PartitionUpdate)
    (images : Option (List String)) : List PartitionUpdate :=
  match images with
  | none => partitions
  | some l =>
    if l = [] then partitions
    else partitions.filter (fun p => p.partition_name ∈ l)

/-- Floor of log2, structurally recursive on a fuel argument (the number
itself bounds the halving count; only about log2 n steps actually unfold). -/
def log2fuel : Nat → Nat → Nat
  | 0, _ => 0
  | fuel + 1, n => if n ≤ 1 then 0 else log2fuel fuel (n / 2) + 1

/-- Floor of log2 of a natural number (0 for inputs below 2). -/
def nlog2 (n : Nat) : Nat := log2fuel n n

/-- Test a / b ≥ 2^e for positive naturals by cross-multiplication (one of
the two exponents is always zero). -/
def cmpPow2 (a b : Nat) (e : Int) : Bool :=
  b * 2 ^ e.toNat ≤ a * 2 ^ (-e).toNat

/-- Floor of log2 of the positive rational a / b: the bit-length difference
is off by at most one, fixed by a single exact comparison. -/
def ratLog2 (a b : Nat) : Int :=
  let c : Int := (nlog2 a : Int) - (nlog2 b : Int)
  if cmpPow2 a b c then c else c - 1

/-- Round p / q (q positive) to the nearest integer, ties to even. -/
def rnd_half_even (p q : Nat) : Nat :=
  let d := p / q
  let r := p % q
  if 2 * r < q then d
  else if q < 2 * r then d + 1
  else if d % 2 = 0 then d else d + 1

/-- Correctly rounded binary64 value of the positive rational a / b (round to
nearest, ties to even, 53-bit mantissa), as a pair m, f with value m * 2^f.
This is the result of the CPython true division of integers a and b.
Subnormal and overflow clamping are not modelled (see the header note). -/
def flRat (a b : Nat) : Nat × Int :=
  let f := ratLog2 a b - 52
  if 0 ≤ f then (rnd_half_even a (b * 2 ^ f.toNat), f)
  else (rnd_half_even (a * 2 ^ (-f).toNat) b, f)

/-- The exact product of the double m * 2^f with the exact double 100,
rounded back to a 53-bit mantissa (binary64 multiplication). -/
def flMul100 (m : Nat) (f : Int) : Nat × Int :=
  let M := 100 * m
  let k := nlog2 M
  if k ≤ 52 then (M, f)
  else (rnd_half_even M (2 ^ (k - 52)), f + (k - 52 : Nat))

/-- Truncation toward zero of the non-negative value m * 2^g. -/
def truncPow2 (m : Nat) (g : Int) : Nat :=
  if 0 ≤ g then m * 2 ^ g.toNat else m / 2 ^ (-g).toNat

/-- Bit-exact model of the source expression `int((idx + 1) / total * 100)`
under CPython semantics: correctly rounded binary64 division of the exact
rational, binary64 multiplication by 100, truncation toward zero.  The loop
never calls it with `total = 0` (the partition list would be empty). -/
def pyPercent (idx total : Nat) : Nat :=
  let x := flRat (idx + 1) total
  let y := flMul100 x.1 x.2
  truncPow2 y.1 y.2

/-- Observable events of the partition loop: a completed `dump_part` call and
a `progress_callback` invocation with its percent argument. -/
inductive Event where
  | dumped (name : String)
  | progressed (pct : Nat)
  deriving DecidableEq, Repr

/-- Partition loop of `run_payload_dumper` (lines 354-370), modelling runs in
which every `dump_part` call succeeds.  Each iteration polls the cancel flag
(indexed by iteration number), dumps the partition, then reports
`int((idx + 1) / total * 100)` via the bit-exact float model `pyPercent`. -/
def run_loop_go (cancel : Nat → Bool) (total : Nat) :
    Nat → List PartitionUpdate → List Event
  | _, [] => []
  | idx, p :: ps =>
    if cancel idx then []
    else
      .dumped p.partition_name :: .progressed (pyPercent idx total) ::
        run_loop_go cancel total (idx + 1) ps

/-- The partition loop started on a selected partition list. -/
def run_loop (parts : List PartitionUpdate) (cancel : Nat → Bool) : List Event :=
  run_loop_go cancel parts.length 0 parts

/-- Names of the partitions the loop actually dumped, in order. -/
def dumpedNames (events : List Event) : List String :=
  events.filterMap (fun e =>
    match e with
    | .dumped n => some n
    | _ => none)

/-- Percent values passed to the progress hook, in call order. -/
def progressValues (events : List Event) : List Nat :=
  events.filterMap (fun e =>
    match e with
    | .progressed p => some p
    | _ => none)

/-- Equality of `Except` values is decidable when both components are; used
to evaluate the embedded functions on concrete witnesses. -/
instance {ε α : Type} [DecidableEq ε] [DecidableEq α] : DecidableEq (Except ε α) :=
  fun a b =>
    match a, b with
    | .ok x, .ok y =>
      if h : x = y then isTrue (h ▸ rfl) else isFalse (fun hh => h (Except.ok.inj hh))
    | .error x, .error y =>
      if h : x = y then isTrue (h ▸ rfl) else isFalse (fun hh => h (Except.error.inj hh))
    | .ok _, .error _ => isFalse (fun hh => Except.noConfusion hh)
    | .error _, .ok _ => isFalse (fun hh => Except.noConfusion hh)

/-- Trace of consecutive `write` calls starting at position `pos`. -/
def appendWritesFrom (pos : Nat) : List (List Nat) → List (Nat × List Nat)
  | [] => []
  | c :: cs => (pos, c) :: appendWritesFrom (pos + c.length) cs

theorem foldl_write_trace (chunks : List (List Nat)) (f : OutFile) :
    chunks.foldl (fun g c => g.write c) f
      = ⟨f.pos + (chunks.map List.length).sum,
          f.writes ++ appendWritesFrom f.pos chunks⟩ := by
  induction chunks generalizing f with
  | nil => simp [appendWritesFrom]
  | cons c cs ih =>
    rw [List.foldl_cons, ih]
    simp only [OutFile.write, appendWritesFrom, List.map_cons, List.sum_cons,
      OutFile.mk.injEq]
    constructor
    · omega
    · simp

/-- A concrete environment for witnesses: identity codecs, a constant hash,
and a constant patch result. -/
def cEnv : Env where
  sha256 := fun _ => [0]
  bz2 := fun d => .ok d
  bz2_stream := fun d => .ok d
  lzma := fun d => .ok d
  zstd := fun d => .ok d
  brotli := fun d => .ok d
  patch := fun _ _ _ _ _ => .ok [7]

/-- C1: when the operation carries a SHA-256 digest and the digest of the
fetched `data_length` bytes at `data_offset + op.data_offset` differs from it,
the operation engine raises the integrity `ValueError` and the output file is
untouched: the error carries the unmodified write trace `out`. -/
theorem C1_hash_mismatch (E : Env) (op : InstallOperation) (payload : List Nat)
    (out : OutFile) (old : Option (List Nat)) (data_offset block_size : Nat)
    (hpresent : op.data_sha256_hash ≠ [])
    (hmismatch :
      E.sha256 ((payload.drop (data_offset + op.data_offset)).take op.data_length)
        ≠ op.data_sha256_hash) :
    data_for_op E op payload out old data_offset block_size
      = .error (out, .valueError "Operation data hash mismatch!") := by
  simp only [data_for_op]
  rw [if_pos ⟨hpresent, hmismatch⟩]

/-- C1 witness: a REPLACE operation with a wrong digest on concrete data. -/
theorem C1_hash_mismatch_witness :
    data_for_op cEnv
      { type := 0, data_offset := 0, data_length := 1, data_sha256_hash := [1],
        src_extents := [], dst_extents := [⟨0, 1⟩] }
      [5] ⟨0, []⟩ none 0 4096
      = .error (⟨0, []⟩, .valueError "Operation data hash mismatch!") :=
  C1_hash_mismatch cEnv _ [5] ⟨0, []⟩ none 0 4096 (by decide) (by decide)

/-- C5: an operation whose type code is outside {0,1,2,3,4,5,6,8,10} and whose
integrity check does not fire makes `data_for_op` raise the unsupported
operation `ValueError` carrying the code, with the output file untouched. -/
theorem C5_unsupported_type (E : Env) (op : InstallOperation) (payload : List Nat)
    (out : OutFile) (old : Option (List Nat)) (data_offset block_size : Nat)
    (htype : op.type ∉ [0, 1, 2, 3, 4, 5, 6, 8, 10])
    (hhash : op.data_sha256_hash = [] ∨
      E.sha256 ((payload.drop (data_offset + op.data_offset)).take op.data_length)
        = op.data_sha256_hash) :
    data_for_op E op payload out old data_offset block_size
      = .error (out, .valueError ("[OP] Unsupported operation type: " ++ toString op.type)) := by
  have hc : ¬(op.data_sha256_hash ≠ [] ∧
      E.sha256 ((payload.drop (data_offset + op.data_offset)).take op.data_length)
        ≠ op.data_sha256_hash) := by
    rcases hhash with h | h
    · exact fun hf => hf.1 h
    · exact fun hf => hf.2 h
  simp only [List.mem_cons, List.not_mem_nil, or_false, not_or] at htype
  obtain ⟨h0, h1, h2, h3, h4, h5, h6, h8, h10⟩ := htype
  simp [data_for_op, hc, h0, h1, h2, h3, h4, h5, h6, h8, h10]

/-- C5 witness: a type 7 operation raises the unsupported-operation error
naming code 7. -/
theorem C5_unsupported_type_witness :
    data_for_op cEnv
      { type := 7, data_offset := 0, data_length := 0, data_sha256_hash := [],
        src_extents := [], dst_extents := [] }
      [] ⟨0, []⟩ none 0 4096
      = .error (⟨0, []⟩, .valueError "[OP] Unsupported operation type: 7") :=
  (C5_unsupported_type cEnv _ [] ⟨0, []⟩ none 0 4096 (by decide) (Or.inl rfl)).trans
    (by decide)

/-- C6: a SOURCE_COPY operation (type 5) that passes the integrity check fails
with the missing-source `ValueError` and an untouched output when no old image
is available; with an old image it seeks to the first destination extent and
appends, for each source extent in order, the bytes of that extent read from
the old image. -/
theorem C6_source_copy (E : Env) (op : InstallOperation) (payload : List Nat)
    (out : OutFile) (data_offset block_size : Nat)
    (htype : op.type = 5)
    (hhash : op.data_sha256_hash = [] ∨
      E.sha256 ((payload.drop (data_offset + op.data_offset)).take op.data_length)
        = op.data_sha256_hash) :
    (data_for_op E op payload out none data_offset block_size
        = .error (out, .valueError "[OP] SOURCE_COPY requires old_file!"))
    ∧ (∀ (od : List Nat) (e0 : Extent) (rest : List Extent),
        op.dst_extents = e0 :: rest →
        data_for_op E op payload out (some od) data_offset block_size
          = .ok ⟨e0.start_block * block_size +
                (op.src_extents.map
                  (fun ext => (extentSlice od ext block_size).length)).sum,
              out.writes ++ appendWritesFrom (e0.start_block * block_size)
                (op.src_extents.map (fun ext => extentSlice od ext block_size))⟩) := by
  have hc : ¬(op.data_sha256_hash ≠ [] ∧
      E.sha256 ((payload.drop (data_offset + op.data_offset)).take op.data_length)
        ≠ op.data_sha256_hash) := by
    rcases hhash with h | h
    · exact fun hf => hf.1 h
    · exact fun hf => hf.2 h
  constructor
  · simp [data_for_op, hc, htype]
  · intro od e0 rest hdst
    have hfold := foldl_write_trace
      (op.src_extents.map (fun ext => extentSlice od ext block_size))
      (OutFile.seek out (e0.start_block * block_size))
    rw [List.foldl_map] at hfold
    simp only [OutFile.seek, List.map_map, Function.comp] at hfold
    simp [data_for_op, hc, htype, hdst, pyHead]
    exact hfold

/-- C6 witness: copying source extent (1,1) of a concrete 8-byte old image to
destination extent (0,1) with block size 4 writes the last four old bytes at
offset 0. -/
theorem C6_source_copy_witness :
    data_for_op cEnv
      { type := 5, data_offset := 0, data_length := 0, data_sha256_hash := [],
        src_extents := [⟨1, 1⟩], dst_extents := [⟨0, 1⟩] }
      [] ⟨0, []⟩ (some [1, 2, 3, 4, 5, 6, 7, 8]) 0 4
      = .ok ⟨4, [(0, [5, 6, 7, 8])]⟩ :=
  ((C6_source_copy cEnv _ [] ⟨0, []⟩ 0 4 rfl (Or.inl rfl)).2
    [1, 2, 3, 4, 5, 6, 7, 8] ⟨0, 1⟩ [] rfl).trans (by decide)

/-- Expected scatter trace: starting from block cursor `n`, each destination
extent receives the next `num_blocks * B` bytes of `buf` at file offset
`start_block * B`. -/
def scatterTrace (buf : List Nat) (B : Nat) : Nat → List Extent → List (Nat × List Nat)
  | _, [] => []
  | n, e :: es =>
    (e.start_block * B, (buf.drop (n * B)).take (e.num_blocks * B))
      :: scatterTrace buf B (n + e.num_blocks) es

theorem scatter_writes (tmp : List Nat) (B : Nat) (exts : List Extent)
    (f : OutFile) (n : Nat) :
    ((exts.foldl
      (fun acc ext =>
        ((acc.1.seek (ext.start_block * B)).write
          ((tmp.drop (acc.2 * B)).take (ext.num_blocks * B)),
          acc.2 + ext.num_blocks))
      (f, n)).1).writes
      = f.writes ++ scatterTrace tmp B n exts := by
  induction exts generalizing f n with
  | nil => simp [scatterTrace]
  | cons e es ih =>
    rw [List.foldl_cons, ih]
    simp [scatterTrace, OutFile.write, OutFile.seek]

theorem scatterTrace_within (patched rest : List Nat) (B : Nat)
    (exts : List Extent) (n : Nat)
    (h : n * B + (exts.map (fun e => e.num_blocks * B)).sum ≤ patched.length) :
    scatterTrace (patched ++ rest) B n exts = scatterTrace patched B n exts := by
  induction exts generalizing n with
  | nil => simp [scatterTrace]
  | cons e es ih =>
    simp only [List.map_cons, List.sum_cons] at h
    have hstep : (n + e.num_blocks) * B = n * B + e.num_blocks * B := by ring
    have htail : (n + e.num_blocks) * B + (es.map (fun e => e.num_blocks * B)).sum
        ≤ patched.length := by omega
    have hbound : n * B + e.num_blocks * B ≤ patched.length := by omega
    have hdrop : (patched ++ rest).drop (n * B) = patched.drop (n * B) ++ rest := by
      rw [List.drop_append_eq_append_drop, Nat.sub_eq_zero_of_le (by omega), List.drop_zero]
    have htake : (patched.drop (n * B) ++ rest).take (e.num_blocks * B)
        = (patched.drop (n * B)).take (e.num_blocks * B) := by
      rw [List.take_append_eq_append_take, Nat.sub_eq_zero_of_le (by simp; omega),
        List.take_zero, List.append_nil]
    simp only [scatterTrace, hdrop, htake, ih _ htail]

/-- C8: a BSDIFF-family operation (type 6 or 10) with a successfully parsed
patch and a patch result whose length is the sum of destination-extent bytes
scatters the patched buffer over `dst_extents` in order: a cursor starts at 0,
each extent receives the next `num_blocks * block_size` bytes of the buffer at
file offset `start_block * block_size`, and the cursor advances accordingly. -/
theorem C8_bsdiff_scatter (E : Env) (op : InstallOperation) (payload : List Nat)
    (out : OutFile) (od : List Nat) (data_offset block_size : Nat)
    (ld : Int) (ctrl : List (Int × Int × Int)) (bd be : Option (List Nat))
    (patched : List Nat)
    (htype : op.type = 6 ∨ op.type = 10)
    (hhash : op.data_sha256_hash = [] ∨
      E.sha256 ((payload.drop (data_offset + op.data_offset)).take op.data_length)
        = op.data_sha256_hash)
    (hdst : op.dst_extents ≠ [])
    (hrp : bsdf2_read_patch E
        ⟨(payload.drop (data_offset + op.data_offset)).take op.data_length, 0⟩
      = .ok (ld, ctrl, bd, be))
    (hpatch : E.patch
        ((op.src_extents.map (fun ext => extentSlice od ext block_size)).flatten)
        ld ctrl bd be = .ok patched)
    (hlen : patched.length
        = (op.dst_extents.map (fun e => e.num_blocks * block_size)).sum) :
    (data_for_op E op payload out (some od) data_offset block_size).map OutFile.writes
      = .ok (out.writes ++ scatterTrace patched block_size 0 op.dst_extents) := by
  have hc : ¬(op.data_sha256_hash ≠ [] ∧
      E.sha256 ((payload.drop (data_offset + op.data_offset)).take op.data_length)
        ≠ op.data_sha256_hash) := by
    rcases hhash with h | h
    · exact fun hf => hf.1 h
    · exact fun hf => hf.2 h
  obtain ⟨e0, rest, hdst_eq⟩ := List.exists_cons_of_ne_nil hdst
  have hscat := scatter_writes
    (patched ++ ((op.src_extents.map (fun ext => extentSlice od ext block_size)).flatten).drop
      patched.length)
    block_size op.dst_extents (OutFile.seek out (e0.start_block * block_size)) 0
  rw [scatterTrace_within _ _ _ _ _ (by rw [← hlen]; simp)] at hscat
  rw [hdst_eq] at hscat
  rcases htype with h6 | h10
  · simp [data_for_op, hc, h6, hdst_eq, pyHead, hrp, hpatch, scatter_extents,
      OutFile.seek, Except.map]
    simpa [OutFile.seek] using hscat
  · simp [data_for_op, hc, h10, hdst_eq, pyHead, hrp, hpatch, scatter_extents,
      OutFile.seek, Except.map]
    simpa [OutFile.seek] using hscat

/-- A concrete BSDIFF operation for the C8 witness. -/
def c8op : InstallOperation :=
  { type := 6, data_offset := 0, data_length := 32, data_sha256_hash := [],
    src_extents := [], dst_extents := [⟨0, 1⟩] }

/-- A concrete payload holding a legacy-magic patch for the C8 witness. -/
def c8payload : List Nat :=
  [66, 83, 68, 73, 70, 70, 52, 48] ++ List.replicate 24 0

/-- C8 witness: a concrete legacy-magic patch whose one-byte result is written
to destination extent (0,1) at offset 0 with block size 1. -/
theorem C8_bsdiff_scatter_witness :
    (data_for_op cEnv c8op c8payload ⟨0, []⟩ (some []) 0 1).map OutFile.writes
      = .ok [(0, [7])] :=
  (C8_bsdiff_scatter cEnv c8op c8payload ⟨0, []⟩ [] 0 1 0 [] (some []) (some []) [7]
    (Or.inl rfl) (Or.inl rfl) (by decide) rfl rfl rfl).trans (by decide)

/-- C7: the legacy bsdiff4 magic selects BZ2 (id 1) for control, diff and
extra; an 8-byte magic whose first five bytes are BSDF2 selects the codec ids
stored in magic bytes 5, 6 and 7; any other magic makes the patch reader fail
with the bad-magic `ValueError`. -/
theorem C7_patch_magic_dispatch :
    (patchAlgs BSDIFF40_MAGIC = .ok (1, 1, 1))
    ∧ (∀ b5 b6 b7 : Nat,
        patchAlgs [66, 83, 68, 70, 50, b5, b6, b7] = .ok (b5, b6, b7))
    ∧ (∀ (E : Env) (magic rest : List Nat), magic.length = 8 →
        magic ≠ BSDIFF40_MAGIC → magic.take 5 ≠ BSDF2_MAGIC →
        bsdf2_read_patch E ⟨magic ++ rest, 0⟩
          = .error (.valueError "incorrect magic bsdiff/BSDF2 header")) := by
  refine ⟨rfl, fun b5 b6 b7 => rfl, ?_⟩
  intro E magic rest h8 hm1 hm2
  have hread : ByteStream.readN ⟨magic ++ rest, 0⟩ 8 = (magic, ⟨magic ++ rest, 8⟩) := by
    simp [ByteStream.readN, ← h8, List.take_left]
  simp [bsdf2_read_patch, hread, patchAlgs, hm1, hm2]

/-- C7 witness: an all-zero magic is neither the legacy magic nor BSDF2, so
the reader rejects it, and a concrete BSDF2 magic with codec bytes 0, 1, 2
selects exactly those ids. -/
theorem C7_patch_magic_dispatch_witness :
    patchAlgs [66, 83, 68, 70, 50, 0, 1, 2] = .ok (0, 1, 2)
    ∧ bsdf2_read_patch cEnv ⟨[0, 0, 0, 0, 0, 0, 0, 0] ++ [9, 9], 0⟩
        = .error (.valueError "incorrect magic bsdiff/BSDF2 header") :=
  ⟨C7_patch_magic_dispatch.2.1 0 1 2,
    C7_patch_magic_dispatch.2.2 cEnv [0, 0, 0, 0, 0, 0, 0, 0] [9, 9]
      (by decide) (by decide) (by decide)⟩

/-- A BSDF2 patch whose control-codec byte is 3 (outside {0,1,2}), followed by
three encoded int64 length fields of value 0. -/
def c3patch : List Nat := [66, 83, 68, 70, 50, 3, 0, 0] ++ List.replicate 24 0

/-- C3: on a BSDF2 patch whose control-codec byte is 3, `bsdf2_decompress`
silently returns the Python value `None` (the function has no else branch),
and `bsdf2_read_patch` then crashes computing `len(bcontrol)` with a
`TypeError` — not the `ValueError` (FormatError) the specification requires. -/
theorem C3_bad_codec_byte_type_error :
    (∀ E : Env, bsdf2_read_patch E ⟨c3patch, 0⟩ = .error .typeError)
    ∧ (∀ msg : String, (Err.typeError : Err) ≠ .valueError msg) :=
  ⟨fun _ => rfl, fun _ h => Err.noConfusion h⟩

theorem beBytes_length (k n : Nat) : (beBytes k n).length = k := by
  induction k generalizing n with
  | zero => rfl
  | succ k ih => simp [beBytes, ih]

theorem beVal_append_byte (l : List Nat) (b : Nat) :
    beVal (l ++ [b]) = beVal l * 256 + b := by
  simp [beVal, List.foldl_append]

theorem beVal_beBytes (k n : Nat) : beVal (beBytes k n) = n % 256 ^ k := by
  induction k generalizing n with
  | zero => simp [beBytes, beVal, Nat.mod_one]
  | succ k ih =>
    rw [beBytes, beVal_append_byte, ih, pow_succ', Nat.mod_mul]
    omega

theorem u64_beBytes (n : Nat) (h : n < 2 ^ 64) : u64 (beBytes 8 n) = .ok n := by
  norm_num at h
  simp [u64, beBytes_length, beVal_beBytes]
  exact h

theorem u32_beBytes (n : Nat) (h : n < 2 ^ 32) : u32 (beBytes 4 n) = .ok n := by
  norm_num at h
  simp [u32, beBytes_length, beVal_beBytes]
  exact h

theorem readN_at (data mid post : List Nat) (p : Nat)
    (hdrop : data.drop p = mid ++ post) :
    ByteStream.readN ⟨data, p⟩ mid.length = (mid, ⟨data, p + mid.length⟩) := by
  simp [ByteStream.readN, hdrop, List.take_left]

theorem readN_rest (data : List Nat) (p n : Nat)
    (h : (data.drop p).length ≤ n) :
    ByteStream.readN ⟨data, p⟩ n
      = (data.drop p, ⟨data, p + (data.drop p).length⟩) := by
  simp [ByteStream.readN, List.take_of_length_le h]

/-- C4 (amended): frame parsing raises `ValueError` for a wrong magic and for
a format version other than 2; but a declared manifest size larger than the
remaining bytes is not detected — the short read is silent, the manifest is
truncated to whatever bytes remain, and parsing succeeds. -/
theorem C4_frame_checks :
    (∀ file : List Nat, file.take 4 ≠ CrAU →
      parseFrame file = .error (.valueError "Invalid magic header, not an OTA payload"))
    ∧ (∀ file : List Nat, file.take 4 = CrAU → ((file.drop 4).take 8).length = 8 →
        beVal ((file.drop 4).take 8) ≠ 2 →
        parseFrame file = .error (.valueError
          ("Unsupported file format version: " ++ toString (beVal ((file.drop 4).take 8)))))
    ∧ (∀ (m s : Nat) (rest : List Nat), m < 2 ^ 64 → s < 2 ^ 32 → rest.length < m →
        parseFrame (CrAU ++ (beBytes 8 2 ++ (beBytes 8 m ++ (beBytes 4 s ++ rest))))
          = .ok (rest, 24 + rest.length)) := by
  refine ⟨?_, ?_, ?_⟩
  · intro file hmagic
    simp [parseFrame, ByteStream.readN, hmagic]
  · intro file h4 h8len hv
    simp [parseFrame, ByteStream.readN, CrAU, u64, h4, h8len, hv]
  · intro m s rest hm hs hlen
    have hv2 : u64 (beBytes 8 2) = .ok 2 := u64_beBytes 2 (by norm_num)
    have hvm : u64 (beBytes 8 m) = .ok m := u64_beBytes m hm
    have hvs : u32 (beBytes 4 s) = .ok s := u32_beBytes s hs
    have d0 : (CrAU ++ (beBytes 8 2 ++ (beBytes 8 m ++ (beBytes 4 s ++ rest)))).drop 0
        = CrAU ++ (beBytes 8 2 ++ (beBytes 8 m ++ (beBytes 4 s ++ rest))) :=
      List.drop_zero _
    have r0 := readN_at _ CrAU (beBytes 8 2 ++ (beBytes 8 m ++ (beBytes 4 s ++ rest))) 0 d0
    simp only [show CrAU.length = 4 from rfl, Nat.zero_add] at r0
    have d4 : (CrAU ++ (beBytes 8 2 ++ (beBytes 8 m ++ (beBytes 4 s ++ rest)))).drop 4
        = beBytes 8 2 ++ (beBytes 8 m ++ (beBytes 4 s ++ rest)) := by
      rw [show (4 : Nat) = CrAU.length from rfl, List.drop_left]
    have r1 := readN_at _ (beBytes 8 2) (beBytes 8 m ++ (beBytes 4 s ++ rest)) 4 d4
    simp only [beBytes_length] at r1
    have d12 : (CrAU ++ (beBytes 8 2 ++ (beBytes 8 m ++ (beBytes 4 s ++ rest)))).drop 12
        = beBytes 8 m ++ (beBytes 4 s ++ rest) := by
      have h1 : (12 : Nat) = 4 + 8 := by norm_num
      rw [h1, ← List.drop_drop, d4, List.drop_left' (beBytes_length 8 2)]
    have r2 := readN_at _ (beBytes 8 m) (beBytes 4 s ++ rest) 12 d12
    simp only [beBytes_length] at r2
    have d20 : (CrAU ++ (beBytes 8 2 ++ (beBytes 8 m ++ (beBytes 4 s ++ rest)))).drop 20
        = beBytes 4 s ++ rest := by
      have h1 : (20 : Nat) = 12 + 8 := by norm_num
      rw [h1, ← List.drop_drop, d12, List.drop_left' (beBytes_length 8 m)]
    have r3 := readN_at _ (beBytes 4 s) rest 20 d20
    simp only [beBytes_length] at r3
    have d24 : (CrAU ++ (beBytes 8 2 ++ (beBytes 8 m ++ (beBytes 4 s ++ rest)))).drop 24
        = rest := by
      have h1 : (24 : Nat) = 20 + 4 := by norm_num
      rw [h1, ← List.drop_drop, d20, List.drop_left' (beBytes_length 4 s)]
    have r4 : ByteStream.readN
        ⟨CrAU ++ (beBytes 8 2 ++ (beBytes 8 m ++ (beBytes 4 s ++ rest))), 24⟩ m
        = (rest, ⟨CrAU ++ (beBytes 8 2 ++ (beBytes 8 m ++ (beBytes 4 s ++ rest))),
            24 + rest.length⟩) := by
      have := readN_rest (CrAU ++ (beBytes 8 2 ++ (beBytes 8 m ++ (beBytes 4 s ++ rest))))
        24 m (by rw [d24]; exact Nat.le_of_lt hlen)
      rw [d24] at this
      exact this
    have d24r : (CrAU ++ (beBytes 8 2 ++ (beBytes 8 m ++ (beBytes 4 s ++ rest)))).drop
        (24 + rest.length) = [] := by
      apply List.drop_eq_nil_of_le
      simp [CrAU, beBytes_length]
      omega
    have r5 : ByteStream.readN
        ⟨CrAU ++ (beBytes 8 2 ++ (beBytes 8 m ++ (beBytes 4 s ++ rest))), 24 + rest.length⟩ s
        = ([], ⟨CrAU ++ (beBytes 8 2 ++ (beBytes 8 m ++ (beBytes 4 s ++ rest))),
            24 + rest.length⟩) := by
      have := readN_rest (CrAU ++ (beBytes 8 2 ++ (beBytes 8 m ++ (beBytes 4 s ++ rest))))
        (24 + rest.length) s (by rw [d24r]; simp)
      rw [d24r] at this
      simpa using this
    simp [parseFrame, r0, r1, r2, r3, r4, r5, hv2, hvm, hvs]

/-- A frame whose header declares a 5-byte manifest while zero bytes remain in
the file. -/
def c4file : List Nat := CrAU ++ beBytes 8 2 ++ beBytes 8 5 ++ beBytes 4 0

/-- C4 counterexample: the truncated frame `c4file` (declared manifest size 5,
zero bytes remaining after the 24-byte header) parses successfully with an
empty manifest instead of raising a FormatError. -/
theorem C4_truncated_manifest_counterexample :
    c4file.length = 24 ∧ parseFrame c4file = .ok ([], 24) :=
  ⟨by decide, by decide⟩

/-- C4 witness: a concrete frame with declared manifest size 5 but only 3
remaining bytes parses to those 3 bytes with data offset 27. -/
theorem C4_frame_checks_witness :
    parseFrame (CrAU ++ (beBytes 8 2 ++ (beBytes 8 5 ++ (beBytes 4 0 ++ [1, 2, 3]))))
      = .ok ([1, 2, 3], 27) :=
  (C4_frame_checks.2.2 5 0 [1, 2, 3] (by norm_num) (by norm_num) (by decide)).trans
    (by decide)

theorem dumpedNames_nil : dumpedNames [] = [] := rfl

theorem dumpedNames_cons_dumped (n : String) (es : List Event) :
    dumpedNames (.dumped n :: es) = n :: dumpedNames es := rfl

theorem dumpedNames_cons_progressed (p : Nat) (es : List Event) :
    dumpedNames (.progressed p :: es) = dumpedNames es := rfl

theorem progressValues_nil : progressValues [] = [] := rfl

theorem progressValues_cons_dumped (n : String) (es : List Event) :
    progressValues (.dumped n :: es) = progressValues es := rfl

theorem progressValues_cons_progressed (p : Nat) (es : List Event) :
    progressValues (.progressed p :: es) = p :: progressValues es := rfl

theorem run_loop_go_step (cancel : Nat → Bool) (total idx : Nat)
    (p : PartitionUpdate) (ps : List PartitionUpdate) (h : cancel idx = false) :
    run_loop_go cancel total idx (p :: ps)
      = .dumped p.partition_name :: .progressed (pyPercent idx total)
        :: run_loop_go cancel total (idx + 1) ps := by
  simp [run_loop_go, h]

theorem run_loop_go_dumped (total : Nat) (parts : List PartitionUpdate) (idx : Nat) :
    dumpedNames (run_loop_go (fun _ => false) total idx parts)
      = parts.map (fun p => p.partition_name) := by
  induction parts generalizing idx with
  | nil => simp [run_loop_go, dumpedNames_nil]
  | cons p ps ih =>
    rw [run_loop_go_step _ _ _ _ _ rfl, dumpedNames_cons_dumped,
      dumpedNames_cons_progressed, ih, List.map_cons]

theorem run_loop_go_progress (total : Nat) (parts : List PartitionUpdate) (idx : Nat) :
    progressValues (run_loop_go (fun _ => false) total idx parts)
      = (List.range parts.length).map (fun i => pyPercent (idx + i) total) := by
  induction parts generalizing idx with
  | nil => simp [run_loop_go, progressValues_nil]
  | cons p ps ih =>
    rw [run_loop_go_step _ _ _ _ _ rfl, progressValues_cons_dumped,
      progressValues_cons_progressed, ih, List.length_cons,
      List.range_succ_eq_map, List.map_cons, List.map_map, List.cons.injEq]
    constructor
    · norm_num
    · apply List.map_congr_left
      intro i hi
      simp only [Function.comp]
      exact congrArg (fun t => pyPercent t total) (by omega)

/-- C2 (amended): in a run in which every partition dump succeeds and nothing
is cancelled, the progress hook is called exactly once per completed
partition, in order, and the call after completing partition `i` (0-based) of
`N` passes `pyPercent i N`, the bit-exact binary64 truncation
`int((i + 1) / N * 100)` of the source — not `round((i + 1) / N * 100)`. -/
theorem C2_progress_per_partition (parts : List PartitionUpdate) :
    dumpedNames (run_loop parts (fun _ => false))
        = parts.map (fun p => p.partition_name)
    ∧ progressValues (run_loop parts (fun _ => false))
        = (List.range parts.length).map (fun i => pyPercent i parts.length) := by
  constructor
  · exact run_loop_go_dumped parts.length parts 0
  · have h := run_loop_go_progress parts.length parts 0
    simpa using h

/-- C2 counterexample: in a three-partition run the progress call after the
second partition (i = 1, N = 3) passes 66 (the binary64 evaluation of
`int(2 / 3 * 100)`), while the claimed value `round((i + 1) / N * 100)` is
67.  The model also reproduces the truncation-versus-floor gap: at N = 50,
i = 28 the code passes 57 where the exact floor would be 58. -/
theorem C2_round_counterexample :
    progressValues (run_loop [⟨"a", []⟩, ⟨"b", []⟩, ⟨"c", []⟩] (fun _ => false))
        = [33, 66, 100]
    ∧ round (((1 : ℚ) + 1) / 3 * 100) = 67
    ∧ pyPercent 28 50 = 57
    ∧ (28 + 1) * 100 / 50 = 58 := by
  refine ⟨by decide, ?_, by decide, by decide⟩
  rw [round_eq, Int.floor_eq_iff]
  norm_num

/-- C9: with a non-empty allow-list the partitions processed by the run loop
are exactly the manifest partitions whose name is in the list, in manifest
order (a sublist of the manifest name sequence); allow-list names with no
matching partition change nothing and raise nothing. -/
theorem C9_allow_list_filter (partitions : List PartitionUpdate) (l : List String)
    (hl : l ≠ []) :
    dumpedNames (run_loop (select_parts partitions (some l)) (fun _ => false))
        = (partitions.filter (fun p => p.partition_name ∈ l)).map
            (fun p => p.partition_name)
    ∧ (dumpedNames (run_loop (select_parts partitions (some l)) (fun _ => false))).Sublist
        (partitions.map (fun p => p.partition_name)) := by
  have hsel : select_parts partitions (some l)
      = partitions.filter (fun p => p.partition_name ∈ l) := by
    simp [select_parts, hl]
  have h1 : dumpedNames (run_loop (select_parts partitions (some l)) (fun _ => false))
      = (partitions.filter (fun p => p.partition_name ∈ l)).map
          (fun p => p.partition_name) := by
    rw [hsel]
    exact run_loop_go_dumped _ _ 0
  refine ⟨h1, ?_⟩
  rw [h1]
  exact List.Sublist.map _ (List.filter_sublist partitions)

/-- The three-partition manifest of scenario S6. -/
def parts3 : List PartitionUpdate := [⟨"boot", []⟩, ⟨"system", []⟩, ⟨"vendor", []⟩]

/-- C9 witness: allow-list `["vendor", "boot"]` against manifest
`[boot, system, vendor]` dumps exactly boot then vendor, in manifest order. -/
theorem C9_allow_list_filter_witness :
    dumpedNames (run_loop (select_parts parts3 (some ["vendor", "boot"])) (fun _ => false))
      = ["boot", "vendor"] :=
  ((C9_allow_list_filter parts3 ["vendor", "boot"] (by simp)).1).trans (by decide)

/-- C10: an allow-list that is present but empty is falsy in Python, so the
selection keeps every manifest partition — identical to passing no allow-list
— and the run dumps all of them. -/
theorem C10_empty_allow_list (partitions : List PartitionUpdate) :
    select_parts partitions (some []) = partitions
    ∧ select_parts partitions (some []) = select_parts partitions none
    ∧ dumpedNames (run_loop (select_parts partitions (some [])) (fun _ => false))
        = partitions.map (fun p => p.partition_name) :=
  ⟨rfl, rfl, run_loop_go_dumped _ _ 0⟩

end PayloadCore
